import Mathlib

/-!
Shallow embedding of `tx.go` from the `btcutils-utxo-exp` repository
(package `btcutil`): the memoizing transaction wrapper types `Tx` and
`TxNew`, their accessors, and the constructors `NewTx`, `NewTxNew`,
`NewTxFromBytes` and `NewTxFromReader`.

The underlying record types `wire.MsgTx` / `wire.MsgTxNew`, the digest
type `chainhash.Hash` and the decoder `wire.MsgTxNew.Deserialize` are
external collaborators (out of scope per the design document, section 1);
they are modelled by their observable interface (section 6): a record is
represented by the values its hash / witness routines return, and the
decoder is a parameter of the byte-level constructors.

Go methods mutate their receiver through a pointer; here every accessor
is a pure function returning its result paired with the updated view
(explicit state passing).  A nil-pointer dereference (a Go panic) is
modelled as `none`.
-/

/-- The digest type `chainhash.Hash`, an external 32-byte value; modelled
as an abstract value (`Nat`) since hashing is out of scope. -/
abbrev chainhash.Hash := Nat

/-- The external record type `wire.MsgTx` (legacy encoding), modelled by
the interface the wrapper consumes: `TxHash()`, `WitnessHash()` and
`HasWitness()` (design document, section 6).  The field values are the
results those external routines produce for this record. -/
structure wire.MsgTx where
  txHashVal : chainhash.Hash
  witnessHashVal : chainhash.Hash
  hasWitnessVal : Bool
deriving DecidableEq

/-- External routine `wire.MsgTx.TxHash`: the identity hash of the record. -/
def wire.MsgTx.TxHash (m : wire.MsgTx) : chainhash.Hash := m.txHashVal

/-- External routine `wire.MsgTx.WitnessHash`: the witness hash of the record. -/
def wire.MsgTx.WitnessHash (m : wire.MsgTx) : chainhash.Hash := m.witnessHashVal

/-- External routine `wire.MsgTx.HasWitness`: whether any input carries
witness data. -/
def wire.MsgTx.HasWitness (m : wire.MsgTx) : Bool := m.hasWitnessVal

/-- The external record type `wire.MsgTxNew` (new encoding), modelled by
the interface the wrapper consumes: `TxHash()`, `HasWitness()` and the
conversion `CreateMsgTx()` into the legacy shape. -/
structure wire.MsgTxNew where
  txHashVal : chainhash.Hash
  hasWitnessVal : Bool
  legacyShape : wire.MsgTx
deriving DecidableEq

/-- External routine `wire.MsgTxNew.TxHash`: the identity hash, computed
from the new record directly. -/
def wire.MsgTxNew.TxHash (m : wire.MsgTxNew) : chainhash.Hash := m.txHashVal

/-- External routine `wire.MsgTxNew.HasWitness`. -/
def wire.MsgTxNew.HasWitness (m : wire.MsgTxNew) : Bool := m.hasWitnessVal

/-- External routine `wire.MsgTxNew.CreateMsgTx`: conversion of the new
record into the legacy shape. -/
def wire.MsgTxNew.CreateMsgTx (m : wire.MsgTxNew) : wire.MsgTx := m.legacyShape

/-- `TxIndexUnknown` (tx.go line 18): sentinel for an unknown block index. -/
def TxIndexUnknown : Int := -1

/-- The wrapper struct `Tx` (tx.go lines 24-30).  Go nil pointers for the
three cache slots become `none`. -/
structure Tx where
  msgTx : wire.MsgTx
  txHash : Option chainhash.Hash
  txHashWitness : Option chainhash.Hash
  txHasWitness : Option Bool
  txIndex : Int
deriving DecidableEq

/-- The wrapper struct `TxNew` (tx.go lines 32-38). -/
structure TxNew where
  msgTxNew : wire.MsgTxNew
  txHash : Option chainhash.Hash
  txHashWitness : Option chainhash.Hash
  txHasWitness : Option Bool
  txIndex : Int
deriving DecidableEq

/-- `Tx.MsgTx` (tx.go lines 41-44): returns the wrapped record; no state
change. -/
def Tx.MsgTx (t : Tx) : wire.MsgTx × Tx := (t.msgTx, t)

/-- `TxNew.MsgTxNew` (tx.go lines 46-49): returns the wrapped record; no
state change. -/
def TxNew.MsgTxNew (t : TxNew) : wire.MsgTxNew × TxNew := (t.msgTxNew, t)

/-- `TxNew.MsgTx` (tx.go lines 51-54): converts the wrapped new-encoded
record to the legacy shape via `CreateMsgTx`; nothing is cached. -/
def TxNew.MsgTx (t : TxNew) : wire.MsgTx × TxNew := (t.msgTxNew.CreateMsgTx, t)

/-- `Tx.Hash` (tx.go lines 59-69): returns the cached identity hash if
present, else computes it via `msgTx.TxHash()`, stores it and returns it. -/
def Tx.Hash (t : Tx) : chainhash.Hash × Tx :=
  match t.txHash with
  | some h => (h, t)
  | none =>
    let hash := t.msgTx.TxHash
    (hash, { t with txHash := some hash })

/-- `TxNew.Hash` (tx.go lines 71-81): same lazy contract over
`msgTxNew.TxHash()` (the new record directly, never via the legacy shape). -/
def TxNew.Hash (t : TxNew) : chainhash.Hash × TxNew :=
  match t.txHash with
  | some h => (h, t)
  | none =>
    let hash := t.msgTxNew.TxHash
    (hash, { t with txHash := some hash })

/-- `Tx.WitnessHash` (tx.go lines 86-96): lazy cache of
`msgTx.WitnessHash()` in the `txHashWitness` slot. -/
def Tx.WitnessHash (t : Tx) : chainhash.Hash × Tx :=
  match t.txHashWitness with
  | some h => (h, t)
  | none =>
    let hash := t.msgTx.WitnessHash
    (hash, { t with txHashWitness := some hash })

/-- `Tx.HasWitness` (tx.go lines 102-110), translated exactly as written:
the guard tests `t.txHashWitness != nil` (the witness-HASH cache) and the
taken branch dereferences `*t.txHasWitness`, which may still be nil; the
nil dereference (Go panic) is `none`.  Otherwise it computes
`msgTx.HasWitness()`, stores it in `txHasWitness` and returns it. -/
def Tx.HasWitness (t : Tx) : Option (Bool × Tx) :=
  if t.txHashWitness.isSome then
    match t.txHasWitness with
    | some b => some (b, t)
    | none => none
  else
    let hasWitness := t.msgTx.HasWitness
    some (hasWitness, { t with txHasWitness := some hasWitness })

/-- `TxNew.HasWitness` (tx.go lines 112-120): here the guard tests the
matching slot `t.txHasWitness`, so no dereference can fail. -/
def TxNew.HasWitness (t : TxNew) : Bool × TxNew :=
  match t.txHasWitness with
  | some b => (b, t)
  | none =>
    let hasWitness := t.msgTxNew.HasWitness
    (hasWitness, { t with txHasWitness := some hasWitness })

/-- `Tx.Index` (tx.go lines 124-126). -/
def Tx.Index (t : Tx) : Int := t.txIndex

/-- `TxNew.Index` (tx.go lines 130-132). -/
def TxNew.Index (t : TxNew) : Int := t.txIndex

/-- `Tx.SetIndex` (tx.go lines 135-137). -/
def Tx.SetIndex (t : Tx) (index : Int) : Tx := { t with txIndex := index }

/-- `TxNew.SetIndex` (tx.go lines 140-142). -/
def TxNew.SetIndex (t : TxNew) (index : Int) : TxNew := { t with txIndex := index }

/-- `NewTx` (tx.go lines 146-151): wraps an already-parsed legacy record;
unset Go struct fields are zero-valued (nil caches). -/
def NewTx (msgTx : wire.MsgTx) : Tx :=
  { msgTx := msgTx
    txHash := none
    txHashWitness := none
    txHasWitness := none
    txIndex := TxIndexUnknown }

/-- `NewTxNew` (tx.go lines 153-158): despite its name it takes a legacy
`wire.MsgTx` and builds the same `Tx` value as `NewTx`. -/
def NewTxNew (msgTx : wire.MsgTx) : Tx :=
  { msgTx := msgTx
    txHash := none
    txHashWitness := none
    txHasWitness := none
    txIndex := TxIndexUnknown }

/-- The decoder diagnostic carried by a decode failure; its contents are
external, so it is modelled abstractly. -/
abbrev DecodeError := Nat

/-- The view literal built by `NewTxFromReader` on success (tx.go lines
177-180): the decoded record wrapped directly, caches empty, index
unknown.  This is also the design document's `fromRecord` for the
new-encoded variant (no such stand-alone constructor exists in the
source). -/
def TxNew.wrap (m : wire.MsgTxNew) : TxNew :=
  { msgTxNew := m
    txHash := none
    txHashWitness := none
    txHasWitness := none
    txIndex := TxIndexUnknown }

/-- `NewTxFromReader` (tx.go lines 169-182).  The reader and
`wire.MsgTxNew.Deserialize` are external; the function is modelled over
the decode outcome: an error is returned unchanged with no view,
a decoded record is wrapped directly. -/
def NewTxFromReader (d : Except DecodeError wire.MsgTxNew) : Except DecodeError TxNew :=
  match d with
  | .error err => .error err
  | .ok msgTxNew => .ok (TxNew.wrap msgTxNew)

/-- `NewTxFromBytes` (tx.go lines 162-165): wraps the buffer in a reader
and delegates to `NewTxFromReader`; `decode` is the external
`wire.MsgTxNew.Deserialize` applied to that reader. -/
def NewTxFromBytes (decode : List Nat → Except DecodeError wire.MsgTxNew)
    (serializedTx : List Nat) : Except DecodeError TxNew :=
  NewTxFromReader (decode serializedTx)

/-- One accessor call on a `Tx` view, for quantifying over arbitrary call
interleavings. -/
inductive TxAction where
  | hash
  | witnessHash
  | hasWitness
  | msgTx
  | index
  | setIndex (i : Int)
deriving DecidableEq

/-- The state effect of one accessor call on a `Tx` view; `none` is a
panic (`Tx.HasWitness` dereferencing an unset slot). -/
def Tx.step (t : Tx) : TxAction → Option Tx
  | .hash => some (t.Hash).2
  | .witnessHash => some (t.WitnessHash).2
  | .hasWitness => (t.HasWitness).map Prod.snd
  | .msgTx => some (t.MsgTx).2
  | .index => some t
  | .setIndex i => some (t.SetIndex i)

/-- Run a sequence of accessor calls on a `Tx` view, threading the state;
`none` as soon as some call panics. -/
def Tx.run (t : Tx) : List TxAction → Option Tx
  | [] => some t
  | a :: rest =>
    match t.step a with
    | none => none
    | some t2 => t2.run rest

/-- `Tx.Hash` instrumented with a call counter for `msgTx.TxHash`
(the design document's call-counting stand-in, section 8): result,
updated view, and how many times the external hash routine ran. -/
def Tx.HashC (t : Tx) : chainhash.Hash × Tx × Nat :=
  match t.txHash with
  | some h => (h, t, 0)
  | none =>
    let hash := t.msgTx.TxHash
    (hash, { t with txHash := some hash }, 1)

/-- `n` successive `Tx.Hash` calls, accumulating the number of
`msgTx.TxHash` invocations. -/
def Tx.hashN (t : Tx) : Nat → Tx × Nat
  | 0 => (t, 0)
  | n + 1 =>
    let r := t.HashC
    let s := r.2.1.hashN n
    (s.1, r.2.2 + s.2)

/-- `TxNew.MsgTx` instrumented with a call counter for
`msgTxNew.CreateMsgTx`: the conversion runs unconditionally. -/
def TxNew.MsgTxC (t : TxNew) : wire.MsgTx × TxNew × Nat :=
  (t.msgTxNew.CreateMsgTx, t, 1)

/-- `n` successive `TxNew.MsgTx` calls, accumulating the number of
`CreateMsgTx` invocations. -/
def TxNew.msgTxN (t : TxNew) : Nat → TxNew × Nat
  | 0 => (t, 0)
  | n + 1 =>
    let r := t.MsgTxC
    let s := r.2.1.msgTxN n
    (s.1, r.2.2 + s.2)

/-- Invariant tying a `Tx` view to the record it was built from: the
wrapped record is `r` and the identity-hash slot, if populated, holds
`r.TxHash`. -/
def Tx.hashInv (r : wire.MsgTx) (t : Tx) : Prop :=
  t.msgTx = r ∧ (t.txHash = none ∨ t.txHash = some r.TxHash)

theorem Tx.hashInv_newTx (r : wire.MsgTx) : (NewTx r).hashInv r :=
  ⟨rfl, Or.inl rfl⟩

theorem Tx.hashInv_step {r : wire.MsgTx} {t t2 : Tx} {a : TxAction}
    (h : t.hashInv r) (hs : t.step a = some t2) : t2.hashInv r := by
  obtain ⟨hm, hc⟩ := h
  cases a with
  | hash =>
    cases hch : t.txHash with
    | some v =>
      simp [Tx.step, Tx.Hash, hch] at hs
      exact hs ▸ ⟨hm, hc⟩
    | none =>
      simp [Tx.step, Tx.Hash, hch] at hs
      subst hs
      exact ⟨hm, Or.inr (by simp [hm])⟩
  | witnessHash =>
    cases hch : t.txHashWitness with
    | some v =>
      simp [Tx.step, Tx.WitnessHash, hch] at hs
      exact hs ▸ ⟨hm, hc⟩
    | none =>
      simp [Tx.step, Tx.WitnessHash, hch] at hs
      subst hs
      exact ⟨hm, hc⟩
  | hasWitness =>
    by_cases hw : t.txHashWitness.isSome
    · cases hcb : t.txHasWitness with
      | some b =>
        simp [Tx.step, Tx.HasWitness, hw, hcb] at hs
        exact hs ▸ ⟨hm, hc⟩
      | none =>
        simp [Tx.step, Tx.HasWitness, hw, hcb] at hs
    · simp [Tx.step, Tx.HasWitness, hw] at hs
      subst hs
      exact ⟨hm, hc⟩
  | msgTx =>
    simp [Tx.step, Tx.MsgTx] at hs
    exact hs ▸ ⟨hm, hc⟩
  | index =>
    simp [Tx.step] at hs
    exact hs ▸ ⟨hm, hc⟩
  | setIndex i =>
    simp [Tx.step, Tx.SetIndex] at hs
    subst hs
    exact ⟨hm, hc⟩

theorem Tx.hashInv_run {r : wire.MsgTx} {t t2 : Tx} {as : List TxAction}
    (h : t.hashInv r) (hs : t.run as = some t2) : t2.hashInv r := by
  induction as generalizing t with
  | nil => simp [Tx.run] at hs; exact hs ▸ h
  | cons a rest ih =>
    simp only [Tx.run] at hs
    cases hstep : t.step a with
    | none => rw [hstep] at hs; simp at hs
    | some t1 =>
      rw [hstep] at hs
      exact ih (Tx.hashInv_step h hstep) hs

theorem Tx.hashInv_hash {r : wire.MsgTx} {t : Tx} (h : t.hashInv r) :
    (t.Hash).1 = r.TxHash := by
  obtain ⟨hm, hc⟩ := h
  rcases hc with hc | hc <;> simp [Tx.Hash, hc, hm]

theorem Tx.hashN_of_cached {t : Tx} (h : t.txHash.isSome) (n : Nat) :
    (t.hashN n).2 = 0 := by
  induction n generalizing t with
  | zero => rfl
  | succ n ih =>
    cases hch : t.txHash with
    | none => rw [hch] at h; simp at h
    | some v => simp [Tx.hashN, Tx.HashC, hch, ih, h, hch]

/-- Concrete legacy record used to evaluate the `Tx.HasWitness` defect for
claim C1. -/
def rC1 : wire.MsgTx := { txHashVal := 1, witnessHashVal := 2, hasWitnessVal := false }

/-- Claim C1 (code bug): the witness-hash and has-witness caches are NOT
independent in `Tx`: on a fresh view, `HasWitness` returns the record's
flag, but after one `WitnessHash` call the same `HasWitness` call
dereferences the still-unset `txHasWitness` slot (its guard tested the
`txHashWitness` slot instead) and panics (`none`), while `WitnessHash`
itself left `txHasWitness` untouched. -/
theorem claimC1_hasWitness_after_witnessHash_panics :
    ((NewTx rC1).HasWitness).map Prod.fst = some false ∧
    ((NewTx rC1).WitnessHash).2.txHasWitness = none ∧
    (((NewTx rC1).WitnessHash).2).HasWitness = none := by
  refine ⟨rfl, rfl, rfl⟩

/-- Concrete legacy record used to evaluate the accessor-totality failure
for claim C2. -/
def rC2 : wire.MsgTx := { txHashVal := 5, witnessHashVal := 7, hasWitnessVal := true }

/-- Claim C2 (code bug): accessors are not total over every reachable
cache state: the two-call sequence `WitnessHash(); HasWitness()` on a
fresh `Tx` view panics (nil dereference of the `txHasWitness` slot),
so the run aborts. -/
theorem claimC2_accessor_sequence_panics :
    Tx.run (NewTx rC2) [TxAction.witnessHash, TxAction.hasWitness] = none := by
  rfl

/-- Claim C3: from `NewTx r`, after any interleaving of accessor calls
that does not panic, `Hash` returns exactly `r.TxHash`; in particular the
first call does, so every call returns the same value as an uncached
computation over `r`. -/
theorem claimC3_hash_stable (r : wire.MsgTx) (as : List TxAction) (t : Tx)
    (h : Tx.run (NewTx r) as = some t) :
    (t.Hash).1 = r.TxHash ∧ ((NewTx r).Hash).1 = r.TxHash :=
  ⟨Tx.hashInv_hash (Tx.hashInv_run (Tx.hashInv_newTx r) h),
   Tx.hashInv_hash (Tx.hashInv_newTx r)⟩

/-- Concrete record and reachable state witnessing claim C3. -/
def rC3 : wire.MsgTx := { txHashVal := 11, witnessHashVal := 12, hasWitnessVal := true }

/-- The state of `NewTx rC3` after the calls `Hash(); SetIndex(4);
HasWitness()`. -/
def tC3 : Tx :=
  { msgTx := rC3
    txHash := some 11
    txHashWitness := none
    txHasWitness := some true
    txIndex := 4 }

/-- Witness for claim C3 at a concrete record and call sequence. -/
theorem claimC3_hash_stable_witness :
    Tx.run (NewTx rC3) [TxAction.hash, TxAction.setIndex 4, TxAction.hasWitness] = some tC3 ∧
    ((tC3.Hash).1 = rC3.TxHash ∧ ((NewTx rC3).Hash).1 = rC3.TxHash) :=
  ⟨by decide,
   claimC3_hash_stable rC3 [TxAction.hash, TxAction.setIndex 4, TxAction.hasWitness] tC3
     (by decide)⟩

/-- Claim C4: over any number of successive `Hash` calls the external
routine `msgTx.TxHash` runs at most once; the instrumented call agrees
with `Tx.Hash`; the first call populates the `txHash` slot with its
result; and a call after a first call returns the same value, runs the
routine zero times and leaves the view unchanged. -/
theorem claimC4_hash_at_most_once (t : Tx) (n : Nat) :
    (t.hashN n).2 ≤ 1 ∧
    ((t.HashC).1, (t.HashC).2.1) = t.Hash ∧
    ((t.HashC).2.1).txHash = some (t.HashC).1 ∧
    ((t.HashC).2.1).HashC = ((t.HashC).1, (t.HashC).2.1, 0) := by
  refine ⟨?_, ?_, ?_, ?_⟩
  · cases hch : t.txHash with
    | some v =>
      have h0 := Tx.hashN_of_cached (t := t) (by simp [hch]) n
      omega
    | none =>
      cases n with
      | zero => simp [Tx.hashN]
      | succ n =>
        have h0 := Tx.hashN_of_cached
          (t := { t with txHash := some t.msgTx.TxHash }) (by simp) n
        simp [Tx.hashN, Tx.HashC, hch, h0]
  · cases hch : t.txHash <;> simp [Tx.HashC, Tx.Hash, hch]
  · cases hch : t.txHash <;> simp [Tx.HashC, hch]
  · cases hch : t.txHash <;> simp [Tx.HashC, hch]

/-- Claim C5: `NewTxFromBytes` returns exactly the decoder's outcome: a
decode error is passed through unchanged with no view, a decoded record
is returned wrapped directly (`TxNew.wrap`, the view literal of
`NewTxFromReader`); and the wrapped view's `Hash` and `HasWitness`
results equal the uncached computations over the decoded record.  (`TxNew`
exposes no `WitnessHash` accessor; since the returned view equals the
direct wrap outright, every accessor's result coincides.) -/
theorem claimC5_frombytes_decoder_passthrough
    (decode : List Nat → Except DecodeError wire.MsgTxNew) (buf : List Nat) :
    NewTxFromBytes decode buf = (decode buf).map TxNew.wrap ∧
    (∀ m : wire.MsgTxNew,
      ((TxNew.wrap m).Hash).1 = m.TxHash ∧
      ((TxNew.wrap m).HasWitness).1 = m.HasWitness) := by
  constructor
  · cases h : decode buf <;> simp [NewTxFromBytes, NewTxFromReader, h, Except.map]
  · intro m
    exact ⟨rfl, rfl⟩

/-- Concrete legacy record for the claim C6 witness. -/
def mC6 : wire.MsgTx := { txHashVal := 21, witnessHashVal := 22, hasWitnessVal := true }

/-- Concrete new-encoded record for the claim C6 witness: the same
transaction as `mC6` (identical external hash and witness-flag results,
legacy shape `mC6`). -/
def mNC6 : wire.MsgTxNew := { txHashVal := 21, hasWitnessVal := true, legacyShape := mC6 }

/-- Claim C6 (code bug): the result-equality half of the claim holds: for
a transaction expressible in both encodings (the external routines agree
on the two records), the legacy-variant view and the new-variant view
produce identical `Hash` and `HasWitness` results.  The
identical-accessor-contract half fails in the source: `WitnessHash` is
defined only on `Tx` (tx.go lines 86-96) and `TxNew` has no `WitnessHash`
accessor at all, although the design document gives both record variants
a witness-hash routine and both views the same five accessors. -/
theorem claimC6_cross_variant (m : wire.MsgTx) (mN : wire.MsgTxNew)
    (hHash : mN.TxHash = m.TxHash) (hWit : mN.HasWitness = m.HasWitness) :
    ((NewTx m).Hash).1 = ((TxNew.wrap mN).Hash).1 ∧
    ((NewTx m).HasWitness).map Prod.fst = some ((TxNew.wrap mN).HasWitness).1 := by
  constructor
  · simp [NewTx, TxNew.wrap, Tx.Hash, TxNew.Hash, hHash]
  · simp [NewTx, TxNew.wrap, Tx.HasWitness, TxNew.HasWitness, hWit]

/-- Witness for claim C6 at the concrete record pair. -/
theorem claimC6_cross_variant_witness :
    mNC6.TxHash = mC6.TxHash ∧ mNC6.HasWitness = mC6.HasWitness ∧
    (((NewTx mC6).Hash).1 = ((TxNew.wrap mNC6).Hash).1 ∧
      ((NewTx mC6).HasWitness).map Prod.fst = some ((TxNew.wrap mNC6).HasWitness).1) :=
  ⟨rfl, rfl, claimC6_cross_variant mC6 mNC6 rfl rfl⟩

/-- Claim C7: `NewTxNew` takes a legacy `wire.MsgTx` and returns exactly
the legacy view `NewTx` would: same wrapped record, index at the unknown
sentinel, all three cache slots empty. -/
theorem claimC7_newtxnew_equals_newtx (m : wire.MsgTx) :
    NewTxNew m = NewTx m ∧
    (NewTxNew m).msgTx = m ∧
    (NewTxNew m).txIndex = TxIndexUnknown ∧
    (NewTxNew m).txHash = none ∧
    (NewTxNew m).txHashWitness = none ∧
    (NewTxNew m).txHasWitness = none :=
  ⟨rfl, rfl, rfl, rfl, rfl, rfl⟩

/-- Claim C8: a fresh view (`NewTx`, or `NewTxFromReader` on a successful
decode, hence also `NewTxFromBytes`) has index `TxIndexUnknown = -1` and
all cache slots empty; and on any view of either variant, `SetIndex i`
followed by `Index` returns `i`. -/
theorem claimC8_index_roundtrip (r : wire.MsgTx) (mN : wire.MsgTxNew)
    (t : Tx) (tN : TxNew) (i : Int) :
    TxIndexUnknown = -1 ∧
    (NewTx r).Index = TxIndexUnknown ∧
    (NewTx r).txHash = none ∧
    (NewTx r).txHashWitness = none ∧
    (NewTx r).txHasWitness = none ∧
    NewTxFromReader (Except.ok mN) = Except.ok (TxNew.wrap mN) ∧
    (TxNew.wrap mN).Index = TxIndexUnknown ∧
    (TxNew.wrap mN).txHash = none ∧
    (TxNew.wrap mN).txHashWitness = none ∧
    (TxNew.wrap mN).txHasWitness = none ∧
    (t.SetIndex i).Index = i ∧
    (tN.SetIndex i).Index = i :=
  ⟨rfl, rfl, rfl, rfl, rfl, rfl, rfl, rfl, rfl, rfl, rfl, rfl⟩

/-- Claim C9: `SetIndex` touches only the `txIndex` field, on both
variants: the wrapped record and the three cache slots are unchanged. -/
theorem claimC9_setindex_frame (t : Tx) (tN : TxNew) (i : Int) :
    (t.SetIndex i).msgTx = t.msgTx ∧
    (t.SetIndex i).txHash = t.txHash ∧
    (t.SetIndex i).txHashWitness = t.txHashWitness ∧
    (t.SetIndex i).txHasWitness = t.txHasWitness ∧
    (tN.SetIndex i).msgTxNew = tN.msgTxNew ∧
    (tN.SetIndex i).txHash = tN.txHash ∧
    (tN.SetIndex i).txHashWitness = tN.txHashWitness ∧
    (tN.SetIndex i).txHasWitness = tN.txHasWitness :=
  ⟨rfl, rfl, rfl, rfl, rfl, rfl, rfl, rfl⟩

/-- Claim C10: `TxNew.MsgTx` is computed fresh on every call: each call
returns `msgTxNew.CreateMsgTx` and leaves the view unchanged, and `n`
successive calls invoke the conversion routine exactly `n` times (nothing
is ever cached). -/
theorem claimC10_msgtx_fresh (t : TxNew) (n : Nat) :
    (t.MsgTx).1 = t.msgTxNew.CreateMsgTx ∧
    (t.MsgTx).2 = t ∧
    t.msgTxN n = (t, n) := by
  refine ⟨rfl, rfl, ?_⟩
  induction n with
  | zero => rfl
  | succ n ih => simp [TxNew.msgTxN, TxNew.MsgTxC, ih, Nat.add_comm]
